import Mathlib

/-!
Shallow embedding of the command-orchestration layer of the ut181a tool
(src/src/main.cpp): argument parsing via GNU getopt_long, mode dispatch,
device session lifecycle and cooperative cancellation.

The UT181A::Device methods are external collaborators (declared in
ut181a.h, outside this repository's visible sources); they are modelled as
an observable event trace plus oracle results: `openResult` is the boolean
returned by Device::Open, `monitorResult` the boolean returned by
Device::Monitor, and `quit n` the value of the `quit_flag` cell at its n-th
read inside the receive loop of Program::Run (the cell is written
asynchronously by Program::SignalHandler).  Standard-output and
standard-error lines are collected as lists of strings, in emission order.

getopt_long itself is libc code, modelled from its documented GNU
semantics as specialised to this program's option tables: `--` terminates
option scanning, long options are matched by exact name (abbreviation
matching is not modelled; every claim uses full option names),
`--name=value` supplies an inline argument, a long option declared with
required_argument and given no inline argument consumes the next argv
element or yields '?' when none is left, short options may be clustered,
a short option with a required argument takes the rest of its cluster or
otherwise the next argv element, an unknown option yields '?', and
non-option arguments are permuted to the end of argv keeping their
relative order.  Argument vectors are modelled without the leading
program name (argv[0]), which getopt never inspects.
-/

/-- Calls into the external UT181A::Device collaborator, in order. -/
inductive DevEvent where
  | Open (serial : Option String)
  | Close
  | Monitor
  | ListRecord
  | ReceiveRecord (index : Int)
deriving DecidableEq, Repr

/-- C `isspace` on the default locale, as used by `atoi`. -/
def cIsSpace (c : Char) : Bool :=
  c = ' ' || c = '\t' || c = '\n' || c = '\x0b' || c = '\x0c' || c = '\r'

/-- Leading-whitespace skipping performed by C `atoi`. -/
def dropSpaces : List Char → List Char
  | [] => []
  | c :: cs => if cIsSpace c then dropSpaces cs else c :: cs

/-- Value of the maximal leading digit run, starting from an accumulator. -/
def digitsVal : List Char → Nat → Nat
  | [], acc => acc
  | c :: cs, acc => if c.isDigit then digitsVal cs (acc * 10 + (c.toNat - 48)) else acc

/-- C `atoi`: skip whitespace, optional sign, then the leading digit run;
a string with no leading digit run yields 0.  Machine overflow is
undefined behaviour in C and is not modelled; values stay exact. -/
def atoi (s : String) : Int :=
  match dropSpaces s.data with
  | '-' :: cs => - (digitsVal cs 0 : Int)
  | '+' :: cs => (digitsVal cs 0 : Int)
  | cs => (digitsVal cs 0 : Int)

/-- One return of getopt_long, as consumed by the switch statement in
Program::ParseArguments: an option character without argument, an option
character together with its optarg, or '?' for any option error. -/
inductive OptEvent where
  | flag (c : Char)
  | withArg (c : Char) (arg : String)
  | err
deriving DecidableEq, Repr

/-- The has_arg field of `struct option`. -/
inductive ArgReq where
  | no_argument
  | required_argument
deriving DecidableEq, Repr

/-- One entry of the long-option table (the flag-pointer field is 0 in
every entry of this program's table, so getopt_long always returns val
and the `case 0:` branch of the switch is unreachable; it is omitted). -/
structure LongOpt where
  name : String
  has_arg : ArgReq
  val : Char
deriving DecidableEq, Repr

namespace Program

def version_info : String := "ut181a ver 0.2 (12/16/2017), loblab"

def help_msg : String :=
  "UT181A USB communication tool\n" ++
  "Usage: ut181a [options] [id1] [id2] ...\n" ++
  "Options:\n" ++
  "    -h|--help   : help message\n" ++
  "    -v|--version: version info\n" ++
  "    -s|--serial : specify serial string if multiple devices connected\n" ++
  "    -m|--monitor: monitor mode (realtime measurement & transfer)\n" ++
  "    -l|--list   : list records\n" ++
  "    -d|--debug n: debug info level. default 0 for none, greater for more\n" ++
  "id1, id2...:\n" ++
  "    record index to dump (as CSV file)\n"

/-- Program::long_options.  Note: the monitor and list entries really do
say required_argument in the source, unlike the short options below and
unlike the help text above. -/
def long_options : List LongOpt :=
  [⟨"help", ArgReq.no_argument, 'h'⟩,
   ⟨"version", ArgReq.no_argument, 'v'⟩,
   ⟨"debug", ArgReq.required_argument, 'd'⟩,
   ⟨"serial", ArgReq.required_argument, 's'⟩,
   ⟨"monitor", ArgReq.required_argument, 'm'⟩,
   ⟨"list", ArgReq.required_argument, 'l'⟩]

/-- Membership of a character in short_options = "hvd:s:ml" without a
following colon. -/
def shortNoArg (c : Char) : Bool := c = 'h' || c = 'v' || c = 'm' || c = 'l'

/-- Membership of a character in short_options = "hvd:s:ml" with a
following colon. -/
def shortReqArg (c : Char) : Bool := c = 'd' || c = 's'

end Program

/-- Classification of one argv token by getopt_long: the terminator "--",
a long option (text after the double dash), a cluster of short options
(text after the single dash), or a non-option argument ("-" alone and ""
count as non-options). -/
inductive TokClass where
  | ddash
  | long (nm : List Char)
  | cluster (cs : List Char)
  | plain
deriving DecidableEq, Repr

def classify (t : String) : TokClass :=
  match t.data with
  | '-' :: '-' :: [] => TokClass.ddash
  | '-' :: '-' :: c :: nm => TokClass.long (c :: nm)
  | '-' :: c :: cs => TokClass.cluster (c :: cs)
  | _ => TokClass.plain

/-- Split long-option text at the first '=' into name and inline argument. -/
def breakAtEq : List Char → List Char × Option (List Char)
  | [] => ([], none)
  | '=' :: rest => ([], some rest)
  | c :: rest =>
    let p := breakAtEq rest
    (c :: p.1, p.2)

/-- Resolution of one long option against Program::long_options.  `nxt` is
the following argv element, if any; the Nat result counts how many extra
argv elements were consumed as the option's argument (0 or 1). -/
def longDispatch (nm : List Char) (nxt : Option String) : OptEvent × Nat :=
  match Program.long_options.find? (fun lo => lo.name = String.mk (breakAtEq nm).1) with
  | none => (OptEvent.err, 0)
  | some lo =>
    match lo.has_arg, (breakAtEq nm).2 with
    | ArgReq.no_argument, none => (OptEvent.flag lo.val, 0)
    | ArgReq.no_argument, some _ => (OptEvent.err, 0)
    | ArgReq.required_argument, some v => (OptEvent.withArg lo.val (String.mk v), 0)
    | ArgReq.required_argument, none =>
      match nxt with
      | none => (OptEvent.err, 0)
      | some u => (OptEvent.withArg lo.val u, 1)

/-- Events produced by one cluster of short options.  `nxt` is the
following argv element, if any; a character requiring an argument takes
the rest of its cluster when non-empty, else `nxt` (consuming it, counted
by the Nat result), else yields '?'. -/
def clusterEv : List Char → Option String → List OptEvent × Nat
  | [], _ => ([], 0)
  | c :: cs, nxt =>
    if Program.shortReqArg c then
      match cs, nxt with
      | [], none => ([OptEvent.err], 0)
      | [], some u => ([OptEvent.withArg c u], 1)
      | c2 :: cs2, _ => ([OptEvent.withArg c (String.mk (c2 :: cs2))], 0)
    else
      ((if Program.shortNoArg c then OptEvent.flag c else OptEvent.err) :: (clusterEv cs nxt).1,
        (clusterEv cs nxt).2)

/-- The stream of getopt_long returns over an argument vector (without
argv[0]).  A missing required argument at the very end of argv yields a
final '?' and ends the stream. -/
def scanEv : List String → List OptEvent
  | [] => []
  | [t] =>
    match classify t with
    | TokClass.ddash => []
    | TokClass.long nm => [(longDispatch nm none).1]
    | TokClass.cluster cs => (clusterEv cs none).1
    | TokClass.plain => []
  | t :: u :: ts =>
    match classify t with
    | TokClass.ddash => []
    | TokClass.long nm =>
      let p := longDispatch nm (some u)
      p.1 :: (if p.2 = 1 then scanEv ts else scanEv (u :: ts))
    | TokClass.cluster cs =>
      let r := clusterEv cs (some u)
      r.1 ++ (if r.2 = 1 then scanEv ts else scanEv (u :: ts))
    | TokClass.plain => scanEv (u :: ts)

/-- The non-option argv elements left over after getopt_long's permutation,
in their original relative order (everything after "--" is a non-option). -/
def scanItems : List String → List String → List String
  | [], acc => acc
  | [t], acc =>
    match classify t with
    | TokClass.ddash => acc
    | TokClass.long _ => acc
    | TokClass.cluster _ => acc
    | TokClass.plain => acc ++ [t]
  | t :: u :: ts, acc =>
    match classify t with
    | TokClass.ddash => acc ++ u :: ts
    | TokClass.long nm =>
      if (longDispatch nm (some u)).2 = 1 then scanItems ts acc else scanItems (u :: ts) acc
    | TokClass.cluster cs =>
      if (clusterEv cs (some u)).2 = 1 then scanItems ts acc else scanItems (u :: ts) acc
    | TokClass.plain => scanItems (u :: ts) (acc ++ [t])

namespace Program

/-- The m_args structure of class Program (item_count is items.length). -/
structure Args where
  list : Bool
  monitor : Bool
  debug : Int
  serial : Option String
  items : List String
deriving DecidableEq, Repr

/-- Field values set by the Program::Program() constructor. -/
def initialArgs : Args := ⟨false, false, 0, none, []⟩

/-- Result of Program::ParseArguments: its int return value, the m_args
state, and the lines written to stdout and stderr while parsing. -/
structure ParseOut where
  rc : Int
  args : Args
  out : List String
  err : List String
deriving DecidableEq, Repr

/-- getopt_long writes its own diagnostic to stderr when it returns '?';
the exact libc wording varies, so a fixed stand-in line is used. -/
def getoptDiagnostic : String := "getopt_long diagnostic\n"

/-- The while/switch loop of Program::ParseArguments, folded over the
getopt event stream.  'h' returns Help() = 1, 'v' returns Version() = 2,
'?' prints the help text and returns -1; 'm', 'l', 's', 'd' update m_args
and continue (the long forms of -m and -l consume an optarg which the
switch ignores).  rc 0 means the event stream was exhausted. -/
def switchLoop (a : Args) (out err : List String) : List OptEvent → ParseOut
  | [] => ⟨0, a, out, err⟩
  | OptEvent.flag c :: es =>
    if c = 'h' then ⟨1, a, out ++ [help_msg], err⟩
    else if c = 'v' then ⟨2, a, out ++ [version_info ++ "\n"], err⟩
    else if c = 'm' then switchLoop { a with monitor := true } out err es
    else if c = 'l' then switchLoop { a with list := true } out err es
    else ⟨-1, a, out ++ [help_msg], err⟩
  | OptEvent.withArg c v :: es =>
    if c = 's' then switchLoop { a with serial := some v } out err es
    else if c = 'd' then
      let d := atoi v
      switchLoop { a with debug := d }
        (if d ≥ 9 then out ++ ["Option -d with value: " ++ toString d ++ "\n"] else out) err es
    else if c = 'm' then switchLoop { a with monitor := true } out err es
    else if c = 'l' then switchLoop { a with list := true } out err es
    else ⟨-1, a, out ++ [help_msg], err⟩
  | OptEvent.err :: _ => ⟨-1, a, out ++ [help_msg], err ++ [getoptDiagnostic]⟩

/-- Program::ParseArguments over an argument vector (without argv[0]):
run the getopt loop; on normal exhaustion collect the permuted non-option
arguments into m_args.items and return 0. -/
def ParseArguments (argv : List String) : ParseOut :=
  let r := switchLoop initialArgs [] [] (scanEv argv)
  if r.rc = 0 then
    let items := scanItems argv []
    ⟨0, { r.args with items := items },
      (if r.args.debug ≥ 9 then
        r.out ++ ["Positional argument count: " ++ toString items.length ++ "\n"]
      else r.out), r.err⟩
  else r

/-- Result of one orchestration step (Init or Run): its int return value,
device calls made, and lines written to stderr and stdout. -/
structure StepOut where
  rc : Int
  dev : List DevEvent
  err : List String
  out : List String
deriving DecidableEq, Repr

/-- Program::Init: register SIGINT (no observable event here) and open the
device session; on failure report to stderr, naming the serial filter when
one was supplied, and return -1. -/
def Init (a : Args) (openResult : Bool) : StepOut :=
  let tr := if a.debug ≥ 9 then ["Program::Init\n"] else []
  if openResult then ⟨0, [DevEvent.Open a.serial], tr, []⟩
  else
    ⟨-1, [DevEvent.Open a.serial],
      tr ++ ["Failed to open UT181A DMM. Please check device connection or settings.\n"] ++
        (match a.serial with
         | some s => ["Is the serial string '" ++ s ++ "' correct?\n"]
         | none => []), []⟩

/-- Program::Done: trace at debug ≥ 9, then close the device session. -/
def Done (a : Args) : List DevEvent × List String :=
  ([DevEvent.Close], if a.debug ≥ 9 then ["Program::Done\n"] else [])

/-- The record-download loop of Program::Run: before each target the
quit_flag is read (the n-th read sees `quit n`); when set the loop breaks,
otherwise the target string is converted with atoi and handed to
Device::ReceiveRecord. -/
def receiveLoop (quit : Nat → Bool) : Nat → List String → List DevEvent
  | _, [] => []
  | i, s :: rest =>
    if quit i then [] else DevEvent.ReceiveRecord (atoi s) :: receiveLoop quit (i + 1) rest

/-- Program::Run: monitor mode, else list mode, else receive mode when
positional items exist, else the idle fallback (help at debug 0, silent
success otherwise). -/
def Run (a : Args) (monitorResult : Bool) (quit : Nat → Bool) : StepOut :=
  let tr := if a.debug ≥ 9 then ["Program::Run\n"] else []
  if a.monitor then
    ⟨if monitorResult then 0 else -1, [DevEvent.Monitor],
      tr ++ ["Ctrl-C to quit the monitor\n"], []⟩
  else if a.list then
    ⟨0, [DevEvent.ListRecord], tr ++ ["Ctrl-C to abort if it takes too long\n"], []⟩
  else if a.items.length > 0 then
    ⟨0, receiveLoop quit 0 a.items, tr ++ ["Ctrl-C to abort the long operation\n"], []⟩
  else if a.debug > 0 then ⟨0, [], tr, []⟩
  else ⟨1, [], tr, [help_msg]⟩

/-- Whole-program outcome: the process exit status, the device call trace,
and the stdout/stderr lines. -/
structure Outcome where
  exitCode : Int
  dev : List DevEvent
  out : List String
  err : List String
deriving DecidableEq, Repr

/-- Program::Main: parse (returning its rc when non-zero), set g_debug,
Init (returning its rc on failure, skipping Run and Done), then Run
followed unconditionally by Done, returning Run's rc. -/
def Main (argv : List String) (openResult monitorResult : Bool) (quit : Nat → Bool) : Outcome :=
  let p := ParseArguments argv
  if p.rc ≠ 0 then ⟨p.rc, [], p.out, p.err⟩
  else
    let i := Init p.args openResult
    if i.rc ≠ 0 then ⟨i.rc, i.dev, p.out, i.err⟩
    else
      let r := Run p.args monitorResult quit
      let d := Done p.args
      ⟨r.rc, i.dev ++ r.dev ++ d.1, p.out ++ r.out, i.err ++ r.err ++ d.2⟩

end Program

/-! ## Helper lemmas about the receive loop -/

/-- Number of receive-loop iterations that run before the quit_flag is
first read as set, when reads start at index i with n iterations left
(n when the flag is never read as set). -/
def stopCount (quit : Nat → Bool) : Nat → Nat → Nat
  | _, 0 => 0
  | i, n + 1 => if quit i then 0 else stopCount quit (i + 1) n + 1

theorem receiveLoop_eq_take (quit : Nat → Bool) :
    ∀ (items : List String) (i : Nat),
      Program.receiveLoop quit i items =
        (items.take (stopCount quit i items.length)).map
          (fun s => DevEvent.ReceiveRecord (atoi s)) := by
  intro items
  induction items with
  | nil => intro i; simp [Program.receiveLoop, stopCount]
  | cons s rest ih =>
    intro i
    by_cases hq : quit i
    · simp [Program.receiveLoop, stopCount, hq]
    · simp [Program.receiveLoop, stopCount, hq, ih (i + 1)]

theorem stopCount_le (quit : Nat → Bool) :
    ∀ (n i j : Nat), quit (i + j) = true → stopCount quit i n ≤ j := by
  intro n
  induction n with
  | zero => intro i j _; simp [stopCount]
  | succ n ih =>
    intro i j hq
    by_cases hqi : quit i
    · simp [stopCount, hqi]
    · have hj : j ≠ 0 := by
        intro he
        subst he
        simp only [Nat.add_zero] at hq
        exact hqi hq
      obtain ⟨j2, rfl⟩ : ∃ j2, j = j2 + 1 := ⟨j - 1, by omega⟩
      have h2 : quit (i + 1 + j2) = true := by
        have he : i + 1 + j2 = i + (j2 + 1) := by omega
        rw [he]
        exact hq
      have h3 := ih (i + 1) j2 h2
      simp [stopCount, hqi]
      omega

theorem receiveLoop_all_false (quit : Nat → Bool) (hq : ∀ n, quit n = false) :
    ∀ (items : List String) (i : Nat),
      Program.receiveLoop quit i items =
        items.map (fun s => DevEvent.ReceiveRecord (atoi s)) := by
  intro items
  induction items with
  | nil => intro i; simp [Program.receiveLoop]
  | cons s rest ih => intro i; simp [Program.receiveLoop, hq i, ih (i + 1)]

theorem receiveLoop_mem (quit : Nat → Bool) :
    ∀ (items : List String) (i : Nat) (e : DevEvent),
      e ∈ Program.receiveLoop quit i items → ∃ k, e = DevEvent.ReceiveRecord k := by
  intro items
  induction items with
  | nil => intro i e he; simp [Program.receiveLoop] at he
  | cons s rest ih =>
    intro i e he
    by_cases hq : quit i
    · simp [Program.receiveLoop, hq] at he
    · simp only [Program.receiveLoop] at he
      rw [if_neg hq] at he
      cases he with
      | head => exact ⟨atoi s, rfl⟩
      | tail _ h2 => exact ih (i + 1) e h2

theorem Run_no_Close (a : Program.Args) (monR : Bool) (quit : Nat → Bool) :
    DevEvent.Close ∉ (Program.Run a monR quit).dev := by
  intro hmem
  by_cases hm : a.monitor
  · simp [Program.Run, hm] at hmem
  · by_cases hl : a.list
    · simp [Program.Run, hm, hl] at hmem
    · by_cases hi : a.items.length > 0
      · simp [Program.Run, hm, hl, hi] at hmem
        obtain ⟨k, hk⟩ := receiveLoop_mem quit a.items 0 DevEvent.Close hmem
        exact DevEvent.noConfusion hk
      · by_cases hd : a.debug > 0
        · simp [Program.Run, hm, hl, hi, hd] at hmem
        · simp [Program.Run, hm, hl, hi, hd] at hmem

/-! ## Helper lemmas about ParseArguments and Main -/

theorem ParseArguments_of_loop_ne_zero (argv : List String)
    (h : (Program.switchLoop Program.initialArgs [] [] (scanEv argv)).rc ≠ 0) :
    Program.ParseArguments argv = Program.switchLoop Program.initialArgs [] [] (scanEv argv) := by
  unfold Program.ParseArguments
  simp [h]

theorem ParseArguments_rc_zero_items (argv : List String)
    (h : (Program.ParseArguments argv).rc = 0) :
    (Program.ParseArguments argv).args.items = scanItems argv [] := by
  unfold Program.ParseArguments at *
  by_cases h0 : (Program.switchLoop Program.initialArgs [] [] (scanEv argv)).rc = 0
  · simp [h0]
  · simp [h0] at h

theorem Main_parse_ne_zero (argv : List String) (openR monR : Bool) (quit : Nat → Bool)
    (h : (Program.ParseArguments argv).rc ≠ 0) :
    Program.Main argv openR monR quit =
      ⟨(Program.ParseArguments argv).rc, [], (Program.ParseArguments argv).out,
        (Program.ParseArguments argv).err⟩ := by
  unfold Program.Main
  simp [h]

theorem Main_open_ok (argv : List String) (monR : Bool) (quit : Nat → Bool)
    (h : (Program.ParseArguments argv).rc = 0) :
    Program.Main argv true monR quit =
      ⟨(Program.Run (Program.ParseArguments argv).args monR quit).rc,
        DevEvent.Open (Program.ParseArguments argv).args.serial ::
          (Program.Run (Program.ParseArguments argv).args monR quit).dev ++ [DevEvent.Close],
        (Program.ParseArguments argv).out ++
          (Program.Run (Program.ParseArguments argv).args monR quit).out,
        (if (Program.ParseArguments argv).args.debug ≥ 9 then ["Program::Init\n"] else []) ++
          (Program.Run (Program.ParseArguments argv).args monR quit).err ++
          (if (Program.ParseArguments argv).args.debug ≥ 9 then ["Program::Done\n"] else [])⟩ := by
  unfold Program.Main Program.Init Program.Done
  simp [h]

theorem Main_open_fail (argv : List String) (openR monR : Bool) (quit : Nat → Bool)
    (h : (Program.ParseArguments argv).rc = 0) (ho : openR = false) :
    Program.Main argv openR monR quit =
      ⟨-1, [DevEvent.Open (Program.ParseArguments argv).args.serial],
        (Program.ParseArguments argv).out,
        (if (Program.ParseArguments argv).args.debug ≥ 9 then ["Program::Init\n"] else []) ++
          ["Failed to open UT181A DMM. Please check device connection or settings.\n"] ++
          (match (Program.ParseArguments argv).args.serial with
           | some s => ["Is the serial string '" ++ s ++ "' correct?\n"]
           | none => [])⟩ := by
  subst ho
  unfold Program.Main Program.Init
  simp [h]

/-- The non-option items collected by the scan extend the accumulator with
a sublist of the scanned tokens (so relative argv order is preserved). -/
theorem scanItems_shape : ∀ (n : Nat) (ts : List String), ts.length ≤ n → ∀ acc,
    ∃ its, scanItems ts acc = acc ++ its ∧ its.Sublist ts := by
  intro n
  induction n with
  | zero =>
    intro ts hts acc
    have hnil : ts = [] := List.eq_nil_of_length_eq_zero (by omega)
    subst hnil
    exact ⟨[], by simp [scanItems], by simp⟩
  | succ n ih =>
    intro ts hts acc
    match ts with
    | [] => exact ⟨[], by simp [scanItems], by simp⟩
    | [t] =>
      cases hc : classify t with
      | ddash => exact ⟨[], by simp [scanItems, hc], by simp⟩
      | long nm => exact ⟨[], by simp [scanItems, hc], by simp⟩
      | cluster cs => exact ⟨[], by simp [scanItems, hc], by simp⟩
      | plain => exact ⟨[t], by simp [scanItems, hc], List.Sublist.refl [t]⟩
    | t :: u :: ts2 =>
      have hts2 : ts2.length ≤ n := by
        simp only [List.length_cons] at hts
        omega
      have hts1 : (u :: ts2).length ≤ n := by
        simp only [List.length_cons] at hts ⊢
        omega
      cases hc : classify t with
      | ddash =>
        exact ⟨u :: ts2, by simp [scanItems, hc], List.Sublist.cons t (List.Sublist.refl _)⟩
      | long nm =>
        by_cases h1 : (longDispatch nm (some u)).2 = 1
        · obtain ⟨its, he, hs⟩ := ih ts2 hts2 acc
          exact ⟨its, by simp [scanItems, hc, h1, he],
            ((hs.cons u).cons t : its.Sublist (t :: u :: ts2))⟩
        · obtain ⟨its, he, hs⟩ := ih (u :: ts2) hts1 acc
          exact ⟨its, by simp [scanItems, hc, h1, he], (hs.cons t : its.Sublist (t :: u :: ts2))⟩
      | cluster cs =>
        by_cases h1 : (clusterEv cs (some u)).2 = 1
        · obtain ⟨its, he, hs⟩ := ih ts2 hts2 acc
          exact ⟨its, by simp [scanItems, hc, h1, he],
            ((hs.cons u).cons t : its.Sublist (t :: u :: ts2))⟩
        · obtain ⟨its, he, hs⟩ := ih (u :: ts2) hts1 acc
          exact ⟨its, by simp [scanItems, hc, h1, he], (hs.cons t : its.Sublist (t :: u :: ts2))⟩
      | plain =>
        obtain ⟨its, he, hs⟩ := ih (u :: ts2) hts1 (acc ++ [t])
        refine ⟨t :: its, ?_, List.Sublist.cons₂ t hs⟩
        simp [scanItems, hc, he]

theorem scanItems_sublist (ts : List String) : (scanItems ts []).Sublist ts := by
  obtain ⟨its, he, hs⟩ := scanItems_shape ts.length ts le_rfl []
  simpa [he] using hs

/-! ## Claim C2 -/

/-- C2: In Receive mode, the targets are iterated in their original argv
order (items is a sublist of argv); before each target the cancellation
token is read, and the device trace is exactly the targets before the
first set read, each converted with atoi, bracketed by Open and Close;
once the token is set at read j, the number of targets handed to the
Device layer is at most j (no target whose turn starts after the set is
handed over, while targets already handed over stay in the trace). -/
theorem c2_receive_order (argv : List String) (monR : Bool) (quit : Nat → Bool)
    (h0 : (Program.ParseArguments argv).rc = 0)
    (hm : (Program.ParseArguments argv).args.monitor = false)
    (hl : (Program.ParseArguments argv).args.list = false)
    (hi : (Program.ParseArguments argv).args.items ≠ []) :
    (Program.Main argv true monR quit).dev =
      DevEvent.Open (Program.ParseArguments argv).args.serial ::
        (((Program.ParseArguments argv).args.items.take
            (stopCount quit 0 (Program.ParseArguments argv).args.items.length)).map
          (fun s => DevEvent.ReceiveRecord (atoi s)) ++ [DevEvent.Close]) ∧
    (∀ j, quit j = true →
      stopCount quit 0 (Program.ParseArguments argv).args.items.length ≤ j) ∧
    (Program.ParseArguments argv).args.items.Sublist argv := by
  have hlen : (Program.ParseArguments argv).args.items.length > 0 :=
    List.length_pos.mpr hi
  have hrun : (Program.Run (Program.ParseArguments argv).args monR quit).dev =
      ((Program.ParseArguments argv).args.items.take
          (stopCount quit 0 (Program.ParseArguments argv).args.items.length)).map
        (fun s => DevEvent.ReceiveRecord (atoi s)) := by
    simp [Program.Run, hm, hl, hlen, receiveLoop_eq_take]
  refine ⟨?_, ?_, ?_⟩
  · rw [Main_open_ok argv monR quit h0]
    simp [hrun]
  · intro j hj
    exact stopCount_le quit _ 0 j (by simpa using hj)
  · rw [ParseArguments_rc_zero_items argv h0]
    exact scanItems_sublist argv

theorem c2_witness :
    (Program.Main ["1", "2", "3"] true true (fun n => decide (2 ≤ n))).dev =
      [DevEvent.Open none, DevEvent.ReceiveRecord 1, DevEvent.ReceiveRecord 2,
        DevEvent.Close] := by
  have h := c2_receive_order ["1", "2", "3"] true (fun n => decide (2 ≤ n))
    (by decide) (by decide) (by decide) (by decide)
  rw [h.1]
  decide

/-! ## Claim C3 -/

/-- C3: Mode selection follows the fixed precedence monitor > list >
non-empty targets: monitor=true runs Monitor whatever list and items are;
monitor=false, list=true runs List whatever items is; Receive runs (the
trace is the receive loop, made of ReceiveRecord calls only) exactly when
both flags are false and items is non-empty. -/
theorem c3_mode_precedence (a : Program.Args) (monR : Bool) (quit : Nat → Bool) :
    (a.monitor = true → (Program.Run a monR quit).dev = [DevEvent.Monitor]) ∧
    (a.monitor = false → a.list = true →
      (Program.Run a monR quit).dev = [DevEvent.ListRecord]) ∧
    (a.monitor = false → a.list = false → a.items ≠ [] →
      (Program.Run a monR quit).dev = Program.receiveLoop quit 0 a.items ∧
        ∀ e ∈ (Program.Run a monR quit).dev, ∃ k, e = DevEvent.ReceiveRecord k) := by
  refine ⟨?_, ?_, ?_⟩
  · intro hm
    simp [Program.Run, hm]
  · intro hm hl
    simp [Program.Run, hm, hl]
  · intro hm hl hi
    have hlen : a.items.length > 0 := List.length_pos.mpr hi
    have hdev : (Program.Run a monR quit).dev = Program.receiveLoop quit 0 a.items := by
      simp [Program.Run, hm, hl, hlen]
    exact ⟨hdev, fun e he => receiveLoop_mem quit a.items 0 e (hdev ▸ he)⟩

theorem c3_witness :
    (Program.Run ⟨true, true, 0, none, ["3"]⟩ true (fun _ => false)).dev =
      [DevEvent.Monitor] :=
  (c3_mode_precedence ⟨true, true, 0, none, ["3"]⟩ true (fun _ => false)).1 rfl

/-! ## Claim C5 -/

/-- C5: Whenever Device::Open succeeds, Device::Close is called exactly
once, strictly after the mode body's device calls, on every path
(including a failing Monitor outcome and a cancelled Receive run, since
the body's device events contain no Close); when Open fails, Close is
never called. -/
theorem c5_close_exactly_once (argv : List String) (openR monR : Bool) (quit : Nat → Bool)
    (h0 : (Program.ParseArguments argv).rc = 0) :
    (openR = true →
      (Program.Main argv openR monR quit).dev.count DevEvent.Close = 1 ∧
      ∃ body, (Program.Main argv openR monR quit).dev =
          DevEvent.Open (Program.ParseArguments argv).args.serial ::
            (body ++ [DevEvent.Close]) ∧
        DevEvent.Close ∉ body) ∧
    (openR = false →
      (Program.Main argv openR monR quit).dev.count DevEvent.Close = 0) := by
  constructor
  · intro ho
    subst ho
    have hM := Main_open_ok argv monR quit h0
    have hnc := Run_no_Close (Program.ParseArguments argv).args monR quit
    constructor
    · rw [hM]
      simp [List.count_append, List.count_cons, List.count_eq_zero.mpr hnc]
    · exact ⟨(Program.Run (Program.ParseArguments argv).args monR quit).dev,
        by rw [hM]; simp, hnc⟩
  · intro ho
    rw [Main_open_fail argv openR monR quit h0 ho]
    simp

theorem c5_witness :
    (Program.Main ["-l"] true true (fun _ => false)).dev.count DevEvent.Close = 1 :=
  ((c5_close_exactly_once ["-l"] true true (fun _ => false) (by decide)).1 rfl).1

/-! ## Claim C6 -/

/-- C6: When Device::Open fails and a serial filter was supplied, the
program writes an error line naming that serial string to stderr, exits
with the non-zero status -1, and executes no mode body: the device trace
is just the failed Open, with no Monitor, ListRecord or ReceiveRecord
call. -/
theorem c6_open_failure_serial (argv : List String) (monR : Bool) (quit : Nat → Bool)
    (s : String)
    (h0 : (Program.ParseArguments argv).rc = 0)
    (hs : (Program.ParseArguments argv).args.serial = some s) :
    (Program.Main argv false monR quit).exitCode = -1 ∧
    ("Is the serial string '" ++ s ++ "' correct?\n") ∈
      (Program.Main argv false monR quit).err ∧
    (Program.Main argv false monR quit).dev = [DevEvent.Open (some s)] := by
  have hM := Main_open_fail argv false monR quit h0 rfl
  rw [hM]
  refine ⟨rfl, ?_, by simp [hs]⟩
  simp [hs]

theorem c6_witness :
    (Program.Main ["-s", "XYZ"] false true (fun _ => false)).exitCode = -1 ∧
    ("Is the serial string '" ++ "XYZ" ++ "' correct?\n") ∈
      (Program.Main ["-s", "XYZ"] false true (fun _ => false)).err :=
  ⟨(c6_open_failure_serial ["-s", "XYZ"] true (fun _ => false) "XYZ"
      (by decide) (by decide)).1,
   (c6_open_failure_serial ["-s", "XYZ"] true (fun _ => false) "XYZ"
      (by decide) (by decide)).2.1⟩

/-! ## Claim C7 -/

/-- C7: A positional target string that is not a valid non-negative
integer (such as "abc") does not abort the receive run: with no
cancellation, every target is handed to the Device layer (so processing
continues past the malformed one), and the malformed target is resolved
by atoi to the fallback record identifier 0. -/
theorem c7_malformed_target (a : Program.Args) (pre post : List String) (monR : Bool)
    (hm : a.monitor = false) (hl : a.list = false)
    (hi : a.items = pre ++ "abc" :: post) :
    (Program.Run a monR (fun _ => false)).dev =
      a.items.map (fun s => DevEvent.ReceiveRecord (atoi s)) ∧
    (Program.Run a monR (fun _ => false)).dev.length = a.items.length ∧
    (Program.Run a monR (fun _ => false)).dev[pre.length]? =
      some (DevEvent.ReceiveRecord 0) := by
  have hlen : a.items.length > 0 := by
    rw [hi]
    simp
  have hdev : (Program.Run a monR (fun _ => false)).dev =
      a.items.map (fun s => DevEvent.ReceiveRecord (atoi s)) := by
    simp [Program.Run, hm, hl, hlen,
      receiveLoop_all_false (fun _ => false) (fun _ => rfl)]
  refine ⟨hdev, by rw [hdev]; simp, ?_⟩
  rw [hdev, hi, List.map_append]
  rw [List.getElem?_append_right (by simp)]
  simp
  decide

theorem c7_witness :
    (Program.Run ⟨false, false, 0, none, ["5", "abc", "7"]⟩ true (fun _ => false)).dev =
      [DevEvent.ReceiveRecord 5, DevEvent.ReceiveRecord 0, DevEvent.ReceiveRecord 7] := by
  have h := c7_malformed_target ⟨false, false, 0, none, ["5", "abc", "7"]⟩
    ["5"] ["7"] true rfl rfl rfl
  rw [h.1]
  decide

/-! ## Claim C10 -/

/-- C10 (implicit): In the Idle case (no mode flags, no targets) a device
session is opened and closed even though no device operation runs; when
Open fails in the Idle case the process exits with the fatal open-failure
status -1 — not the help status 1 or the silent status 0 — and the help
fallback is not printed (stdout is exactly what parsing printed). -/
theorem c10_idle_session (argv : List String) (openR monR : Bool) (quit : Nat → Bool)
    (h0 : (Program.ParseArguments argv).rc = 0)
    (hm : (Program.ParseArguments argv).args.monitor = false)
    (hl : (Program.ParseArguments argv).args.list = false)
    (hi : (Program.ParseArguments argv).args.items = []) :
    (openR = true →
      (Program.Main argv openR monR quit).dev =
        [DevEvent.Open (Program.ParseArguments argv).args.serial, DevEvent.Close]) ∧
    (openR = false →
      (Program.Main argv openR monR quit).dev =
        [DevEvent.Open (Program.ParseArguments argv).args.serial] ∧
      (Program.Main argv openR monR quit).exitCode = -1 ∧
      (Program.Main argv openR monR quit).out = (Program.ParseArguments argv).out) := by
  constructor
  · intro ho
    subst ho
    rw [Main_open_ok argv monR quit h0]
    have hrdev : (Program.Run (Program.ParseArguments argv).args monR quit).dev = [] := by
      by_cases hd : (Program.ParseArguments argv).args.debug > 0
      · simp [Program.Run, hm, hl, hi, hd]
      · simp [Program.Run, hm, hl, hi, hd]
    simp [hrdev]
  · intro ho
    rw [Main_open_fail argv openR monR quit h0 ho]
    exact ⟨rfl, rfl, rfl⟩

theorem c10_witness :
    (Program.Main [] false true (fun _ => false)).dev = [DevEvent.Open none] ∧
    (Program.Main [] false true (fun _ => false)).exitCode = -1 := by
  have h := (c10_idle_session [] false true (fun _ => false)
    (by decide) (by decide) (by decide) (by decide)).2 rfl
  exact ⟨h.1, h.2.1⟩

/-! ## Claim C4 (corrected) -/

/-- C4 as stated is false: in the Idle case with debug level 1, when
Device::Open fails the program exits with -1 (not 0) and produces output
(the open-failure diagnostics), contradicting "exits with status 0
producing no output" for debug level > 0. -/
theorem c4_counterexample :
    (Program.Main ["-d", "1"] false true (fun _ => false)).exitCode = -1 ∧
    (Program.Main ["-d", "1"] false true (fun _ => false)).exitCode ≠ 0 ∧
    (Program.Main ["-d", "1"] false true (fun _ => false)).err ≠ [] := by
  decide

/-- C4 amended: for every Idle argument vector (no mode flags, no
targets), provided the device session opens successfully: if the debug
level is 0 the program behaves as Help — it prints the help text and
exits with status 1; if the debug level is greater than 0 it exits with
status 0, prints nothing beyond what argument parsing itself printed, and
(when the level is below 9, so that the internal tracing is off) writes
nothing to stderr. -/
theorem c4_idle_amended (argv : List String) (monR : Bool) (quit : Nat → Bool)
    (h0 : (Program.ParseArguments argv).rc = 0)
    (hm : (Program.ParseArguments argv).args.monitor = false)
    (hl : (Program.ParseArguments argv).args.list = false)
    (hi : (Program.ParseArguments argv).args.items = []) :
    ((Program.ParseArguments argv).args.debug = 0 →
      (Program.Main argv true monR quit).exitCode = 1 ∧
      Program.help_msg ∈ (Program.Main argv true monR quit).out) ∧
    (0 < (Program.ParseArguments argv).args.debug →
      (Program.Main argv true monR quit).exitCode = 0 ∧
      (Program.Main argv true monR quit).out = (Program.ParseArguments argv).out ∧
      ((Program.ParseArguments argv).args.debug < 9 →
        (Program.Main argv true monR quit).err = [])) := by
  have hM := Main_open_ok argv monR quit h0
  constructor
  · intro hd
    have hrun : Program.Run (Program.ParseArguments argv).args monR quit =
        ⟨1, [], [], [Program.help_msg]⟩ := by
      simp [Program.Run, hm, hl, hi, hd]
    rw [hM, hrun]
    constructor
    · rfl
    · simp
  · intro hd
    have hrun : Program.Run (Program.ParseArguments argv).args monR quit =
        ⟨0, [],
          (if (Program.ParseArguments argv).args.debug ≥ 9 then ["Program::Run\n"] else []),
          []⟩ := by
      simp [Program.Run, hm, hl, hi, hd]
    rw [hM, hrun]
    refine ⟨rfl, by simp, ?_⟩
    intro h9
    have h9n : ¬((Program.ParseArguments argv).args.debug ≥ 9) := by omega
    simp [h9n]

theorem c4_witness :
    (Program.Main ["-d", "1"] true true (fun _ => false)).exitCode = 0 ∧
    (Program.Main ["-d", "1"] true true (fun _ => false)).out = [] ∧
    (Program.Main ["-d", "1"] true true (fun _ => false)).err = [] := by
  have h := (c4_idle_amended ["-d", "1"] true (fun _ => false)
    (by decide) (by decide) (by decide) (by decide)).2 (by decide)
  refine ⟨h.1, ?_, h.2.2 (by decide)⟩
  rw [h.2.1]
  decide

/-! ## Claim C1 (corrected) -/

/-- C1 as stated is false: the argument vector ["-v", "-h"] contains "-h",
yet the program exits with status 2 (the version status reached first),
not 1. -/
theorem c1_counterexample :
    (Program.Main ["-v", "-h"] true true (fun _ => false)).exitCode = 2 ∧
    (Program.Main ["-v", "-h"] true true (fun _ => false)).exitCode ≠ 1 := by
  decide

/-! ## Claim C8 (code bug) -/

set_option maxRecDepth 8192 in
/-- C8: the help text and short_options treat --monitor as taking no
argument, but the long_options table declares it required_argument, so
"ut181a --monitor" is rejected as a parse failure: exit status -1, help
text printed, monitor flag never set, no device call — it does not behave
like -m.  With a following token, "--monitor 5" swallows "5" as a
discarded option argument (Monitor mode with no targets) instead of
treating it as a record identifier. -/
theorem c8_long_monitor_rejected :
    (Program.Main ["--monitor"] true true (fun _ => false)).exitCode = -1 ∧
    (Program.Main ["--monitor"] true true (fun _ => false)).dev = [] ∧
    Program.help_msg ∈ (Program.Main ["--monitor"] true true (fun _ => false)).out ∧
    (Program.ParseArguments ["--monitor"]).args.monitor = false ∧
    (Program.Main ["--monitor", "5"] true true (fun _ => false)).dev =
      [DevEvent.Open none, DevEvent.Monitor, DevEvent.Close] := by
  decide

/-! ## Stability of early parser returns under appended arguments -/

theorem switchLoop_flag_h (a : Program.Args) (o e : List String) (es : List OptEvent) :
    Program.switchLoop a o e (OptEvent.flag 'h' :: es) =
      ⟨1, a, o ++ [Program.help_msg], e⟩ := rfl

theorem switchLoop_flag_v (a : Program.Args) (o e : List String) (es : List OptEvent) :
    Program.switchLoop a o e (OptEvent.flag 'v' :: es) =
      ⟨2, a, o ++ [Program.version_info ++ "\n"], e⟩ := rfl

theorem switchLoop_flag_m (a : Program.Args) (o e : List String) (es : List OptEvent) :
    Program.switchLoop a o e (OptEvent.flag 'm' :: es) =
      Program.switchLoop { a with monitor := true } o e es := rfl

theorem switchLoop_flag_l (a : Program.Args) (o e : List String) (es : List OptEvent) :
    Program.switchLoop a o e (OptEvent.flag 'l' :: es) =
      Program.switchLoop { a with list := true } o e es := rfl

theorem switchLoop_err_head (a : Program.Args) (o e : List String) (es : List OptEvent) :
    Program.switchLoop a o e (OptEvent.err :: es) =
      ⟨-1, a, o ++ [Program.help_msg], e ++ [Program.getoptDiagnostic]⟩ := rfl

/-- The ParseArguments switch loop either exhausts its event list (rc 0),
in which case appending further events continues the loop from the state
reached, or stops early, in which case appended events do not change the
result. -/
theorem foldCases (es : List OptEvent) : ∀ (a : Program.Args) (o e : List String),
    (∃ a2 o2 e2, Program.switchLoop a o e es = ⟨0, a2, o2, e2⟩ ∧
      ∀ xs, Program.switchLoop a o e (es ++ xs) = Program.switchLoop a2 o2 e2 xs) ∨
    (∀ xs, Program.switchLoop a o e (es ++ xs) = Program.switchLoop a o e es) := by
  induction es with
  | nil =>
    intro a o e
    exact Or.inl ⟨a, o, e, rfl, fun xs => rfl⟩
  | cons ev es ih =>
    intro a o e
    match ev with
    | OptEvent.flag c =>
      by_cases hh : c = 'h'
      · subst hh
        right
        intro xs
        rw [List.cons_append, switchLoop_flag_h, switchLoop_flag_h]
      · by_cases hv : c = 'v'
        · subst hv
          right
          intro xs
          rw [List.cons_append, switchLoop_flag_v, switchLoop_flag_v]
        · by_cases hm : c = 'm'
          · subst hm
            rcases ih { a with monitor := true } o e with ⟨a2, o2, e2, h1, h2⟩ | h
            · left
              refine ⟨a2, o2, e2, ?_, ?_⟩
              · rw [switchLoop_flag_m]
                exact h1
              · intro xs
                rw [List.cons_append, switchLoop_flag_m]
                exact h2 xs
            · right
              intro xs
              rw [List.cons_append, switchLoop_flag_m, switchLoop_flag_m]
              exact h xs
          · by_cases hl : c = 'l'
            · subst hl
              rcases ih { a with list := true } o e with ⟨a2, o2, e2, h1, h2⟩ | h
              · left
                refine ⟨a2, o2, e2, ?_, ?_⟩
                · rw [switchLoop_flag_l]
                  exact h1
                · intro xs
                  rw [List.cons_append, switchLoop_flag_l]
                  exact h2 xs
              · right
                intro xs
                rw [List.cons_append, switchLoop_flag_l, switchLoop_flag_l]
                exact h xs
            · right
              intro xs
              simp [Program.switchLoop, hh, hv, hm, hl]
    | OptEvent.withArg c v =>
      by_cases hs : c = 's'
      · subst hs
        rcases ih { a with serial := some v } o e with ⟨a2, o2, e2, h1, h2⟩ | h
        · left
          refine ⟨a2, o2, e2, ?_, ?_⟩
          · simpa [Program.switchLoop] using h1
          · intro xs
            simpa [Program.switchLoop] using h2 xs
        · right
          intro xs
          simpa [Program.switchLoop] using h xs
      · by_cases hd : c = 'd'
        · subst hd
          rcases ih { a with debug := atoi v }
              (if atoi v ≥ 9 then o ++ ["Option -d with value: " ++ toString (atoi v) ++ "\n"]
               else o) e with ⟨a2, o2, e2, h1, h2⟩ | h
          · left
            refine ⟨a2, o2, e2, ?_, ?_⟩
            · simpa [Program.switchLoop] using h1
            · intro xs
              simpa [Program.switchLoop] using h2 xs
          · right
            intro xs
            simpa [Program.switchLoop] using h xs
        · by_cases hm : c = 'm'
          · subst hm
            rcases ih { a with monitor := true } o e with ⟨a2, o2, e2, h1, h2⟩ | h
            · left
              refine ⟨a2, o2, e2, ?_, ?_⟩
              · simpa [Program.switchLoop] using h1
              · intro xs
                simpa [Program.switchLoop] using h2 xs
            · right
              intro xs
              simpa [Program.switchLoop] using h xs
          · by_cases hl : c = 'l'
            · subst hl
              rcases ih { a with list := true } o e with ⟨a2, o2, e2, h1, h2⟩ | h
              · left
                refine ⟨a2, o2, e2, ?_, ?_⟩
                · simpa [Program.switchLoop] using h1
                · intro xs
                  simpa [Program.switchLoop] using h2 xs
              · right
                intro xs
                simpa [Program.switchLoop] using h xs
            · right
              intro xs
              simp [Program.switchLoop, hs, hd, hm, hl]
    | OptEvent.err =>
      right
      intro xs
      rw [List.cons_append, switchLoop_err_head, switchLoop_err_head]

theorem longDispatch_none_snd (nm : List Char) : (longDispatch nm none).2 = 0 := by
  unfold longDispatch
  cases hf : Program.long_options.find? (fun lo => lo.name = String.mk (breakAtEq nm).1) with
  | none => rfl
  | some lo =>
    cases hr : lo.has_arg with
    | no_argument =>
      cases ho : (breakAtEq nm).2 <;> simp [hr, ho]
    | required_argument =>
      cases ho : (breakAtEq nm).2 <;> simp [hr, ho]

/-- A long option behaves the same with or without a following argv
element, except in the missing-required-argument case, where end of argv
gives '?' while a following element is consumed as the argument. -/
theorem longDispatch_some (nm : List Char) (u : String) :
    longDispatch nm (some u) = longDispatch nm none ∨
    ((longDispatch nm none).1 = OptEvent.err ∧
      ∃ c, longDispatch nm (some u) = (OptEvent.withArg c u, 1)) := by
  unfold longDispatch
  cases hf : Program.long_options.find? (fun lo => lo.name = String.mk (breakAtEq nm).1) with
  | none => left; rfl
  | some lo =>
    cases hr : lo.has_arg with
    | no_argument =>
      cases ho : (breakAtEq nm).2 with
      | none => left; simp [hr, ho]
      | some v => left; simp [hr, ho]
    | required_argument =>
      cases ho : (breakAtEq nm).2 with
      | none =>
        right
        refine ⟨by simp [hr, ho], lo.val, by simp [hr, ho]⟩
      | some v => left; simp [hr, ho]

theorem clusterEv_none_snd : ∀ (cl : List Char), (clusterEv cl none).2 = 0 := by
  intro cl
  induction cl with
  | nil => rfl
  | cons c cs ih =>
    by_cases hr : Program.shortReqArg c
    · cases cs with
      | nil => simp [clusterEv, hr]
      | cons c2 cs2 => simp [clusterEv, hr]
    · simp [clusterEv, hr, ih]

/-- A short-option cluster behaves the same with or without a following
argv element, except when its last character requires an argument that
the cluster does not contain: end of argv then yields a final '?', while
a following element is consumed as the argument. -/
theorem clusterEv_some (cl : List Char) (u : String) :
    clusterEv cl (some u) = clusterEv cl none ∨
    (∃ E c, clusterEv cl none = (E ++ [OptEvent.err], 0) ∧
      clusterEv cl (some u) = (E ++ [OptEvent.withArg c u], 1)) := by
  induction cl with
  | nil => left; rfl
  | cons c cs ih =>
    by_cases hr : Program.shortReqArg c
    · cases cs with
      | nil =>
        right
        exact ⟨[], c, by simp [clusterEv, hr], by simp [clusterEv, hr]⟩
      | cons c2 cs2 =>
        left
        simp [clusterEv, hr]
    · rcases ih with h | ⟨E, cc, h1, h2⟩
      · left
        simp [clusterEv, hr, h]
      · right
        refine ⟨(if Program.shortNoArg c then OptEvent.flag c else OptEvent.err) :: E, cc,
          ?_, ?_⟩
        · simp [clusterEv, hr, h1]
        · simp [clusterEv, hr, h2]

/-- Appending further argv elements either extends the getopt event
stream, or (when the original vector ended in a missing required
argument) replaces the final '?' by an option-with-argument event that
consumes the first appended element. -/
theorem scanSplit : ∀ (n : Nat) (ts : List String), ts.length ≤ n → ∀ (post : List String),
    (∃ X, scanEv (ts ++ post) = scanEv ts ++ X) ∨
    (∃ E c u X, scanEv ts = E ++ [OptEvent.err] ∧
      scanEv (ts ++ post) = E ++ OptEvent.withArg c u :: X) := by
  intro n
  induction n with
  | zero =>
    intro ts hts post
    have hnil : ts = [] := List.eq_nil_of_length_eq_zero (by omega)
    subst hnil
    exact Or.inl ⟨scanEv post, by simp [scanEv]⟩
  | succ n ih =>
    intro ts hts post
    match ts with
    | [] => exact Or.inl ⟨scanEv post, by simp [scanEv]⟩
    | [t] =>
      cases post with
      | nil => exact Or.inl ⟨[], by simp⟩
      | cons u post2 =>
        cases hc : classify t with
        | ddash =>
          left
          exact ⟨[], by simp [scanEv, hc]⟩
        | plain =>
          left
          exact ⟨scanEv (u :: post2), by simp [scanEv, hc]⟩
        | long nm =>
          rcases longDispatch_some nm u with he | ⟨he1, c2, he2⟩
          · left
            refine ⟨scanEv (u :: post2), ?_⟩
            simp [scanEv, hc, he, longDispatch_none_snd nm]
          · right
            refine ⟨[], c2, u, scanEv post2, ?_, ?_⟩
            · simp [scanEv, hc, he1]
            · simp [scanEv, hc, he2]
        | cluster cs =>
          rcases clusterEv_some cs u with he | ⟨E, c2, he1, he2⟩
          · left
            refine ⟨scanEv (u :: post2), ?_⟩
            simp [scanEv, hc, he, clusterEv_none_snd cs]
          · right
            refine ⟨E, c2, u, scanEv post2, ?_, ?_⟩
            · simp [scanEv, hc, he1]
            · simp [scanEv, hc, he2]
    | t :: u :: ts2 =>
      have hts1 : (u :: ts2).length ≤ n := by
        simp only [List.length_cons] at hts ⊢
        omega
      have hts2 : ts2.length ≤ n := by
        simp only [List.length_cons] at hts
        omega
      cases hc : classify t with
      | ddash =>
        left
        exact ⟨[], by simp [scanEv, hc]⟩
      | plain =>
        rcases ih (u :: ts2) hts1 post with ⟨X, hX⟩ | ⟨E, c2, u2, X, h1, h2⟩
        · left
          refine ⟨X, ?_⟩
          simp only [List.cons_append]
          simp only [scanEv, hc]
          simpa using hX
        · right
          refine ⟨E, c2, u2, X, ?_, ?_⟩
          · simp only [scanEv, hc]
            exact h1
          · simp only [List.cons_append]
            simp only [scanEv, hc]
            simpa using h2
      | long nm =>
        by_cases h1 : (longDispatch nm (some u)).2 = 1
        · rcases ih ts2 hts2 post with ⟨X, hX⟩ | ⟨E, c2, u2, X, hE1, hE2⟩
          · left
            refine ⟨X, ?_⟩
            simp only [List.cons_append]
            simp only [scanEv, hc, h1, if_true]
            simpa using hX
          · right
            refine ⟨(longDispatch nm (some u)).1 :: E, c2, u2, X, ?_, ?_⟩
            · simp [scanEv, hc, h1, hE1]
            · simp only [List.cons_append]
              simp [scanEv, hc, h1, hE2]
        · rcases ih (u :: ts2) hts1 post with ⟨X, hX⟩ | ⟨E, c2, u2, X, hE1, hE2⟩
          · left
            refine ⟨X, ?_⟩
            simp only [List.cons_append]
            simp only [scanEv, hc, h1, if_false]
            simpa using hX
          · right
            refine ⟨(longDispatch nm (some u)).1 :: E, c2, u2, X, ?_, ?_⟩
            · simp [scanEv, hc, h1, hE1]
            · simp only [List.cons_append]
              simp [scanEv, hc, h1]
              rw [← List.cons_append]
              exact hE2
      | cluster cs =>
        by_cases h1 : (clusterEv cs (some u)).2 = 1
        · rcases ih ts2 hts2 post with ⟨X, hX⟩ | ⟨E, c2, u2, X, hE1, hE2⟩
          · left
            refine ⟨X, ?_⟩
            simp only [List.cons_append]
            simp only [scanEv, hc, h1, if_true]
            simp only [List.append_assoc]
            simpa using hX
          · right
            refine ⟨(clusterEv cs (some u)).1 ++ E, c2, u2, X, ?_, ?_⟩
            · simp [scanEv, hc, h1, hE1]
            · simp only [List.cons_append]
              simp [scanEv, hc, h1, hE2]
        · rcases ih (u :: ts2) hts1 post with ⟨X, hX⟩ | ⟨E, c2, u2, X, hE1, hE2⟩
          · left
            refine ⟨X, ?_⟩
            simp only [List.cons_append]
            simp only [scanEv, hc, h1, if_false]
            simp only [List.append_assoc]
            simpa using hX
          · right
            refine ⟨(clusterEv cs (some u)).1 ++ E, c2, u2, X, ?_, ?_⟩
            · simp [scanEv, hc, h1, hE1]
            · simp only [List.cons_append]
              simp [scanEv, hc, h1]
              rw [← List.cons_append]
              exact hE2

/-- If the parser loop stops with the help or version status on an
argument vector, appending further arguments does not change its result:
the appended part is never folded. -/
theorem foldStable (ts post : List String) (a : Program.Args) (o e : List String)
    (h : (Program.switchLoop a o e (scanEv ts)).rc = 1 ∨
      (Program.switchLoop a o e (scanEv ts)).rc = 2) :
    Program.switchLoop a o e (scanEv (ts ++ post)) =
      Program.switchLoop a o e (scanEv ts) := by
  rcases scanSplit ts.length ts le_rfl post with ⟨X, hX⟩ | ⟨E, c, u, X, hE, hX⟩
  · rw [hX]
    rcases foldCases (scanEv ts) a o e with ⟨a2, o2, e2, h0, hext⟩ | hstop
    · rw [h0] at h
      simp at h
    · exact hstop X
  · rw [hX, hE]
    rw [hE] at h
    rcases foldCases E a o e with ⟨a2, o2, e2, h0, hext⟩ | hstop
    · rw [hext [OptEvent.err]] at h
      rw [switchLoop_err_head] at h
      simp at h
    · rw [hstop (OptEvent.withArg c u :: X), hstop [OptEvent.err]]

/-! ## Claim C9 -/

/-- C9 (implicit): once the parser stops at a help or version flag it
returns immediately without examining the rest of the argument vector:
for any suffix appended after a vector on which parsing returns the help
or version status, the whole program still exits with that same status,
makes no device call, and parsing gives the identical result (so later
unknown flags cause no parse failure and later positionals never become
targets). -/
theorem c9_early_return_suffix (argv post : List String) (openR monR : Bool)
    (quit : Nat → Bool)
    (h : (Program.ParseArguments argv).rc = 1 ∨ (Program.ParseArguments argv).rc = 2) :
    (Program.Main (argv ++ post) openR monR quit).exitCode =
      (Program.ParseArguments argv).rc ∧
    (Program.Main (argv ++ post) openR monR quit).dev = [] ∧
    Program.ParseArguments (argv ++ post) = Program.ParseArguments argv := by
  have hr : (Program.switchLoop Program.initialArgs [] [] (scanEv argv)).rc ≠ 0 := by
    intro h0
    have hz : (Program.ParseArguments argv).rc = 0 := by
      unfold Program.ParseArguments
      simp [h0]
    rcases h with h | h <;> omega
  have hpe : Program.ParseArguments argv =
      Program.switchLoop Program.initialArgs [] [] (scanEv argv) :=
    ParseArguments_of_loop_ne_zero argv hr
  have hfold : Program.switchLoop Program.initialArgs [] [] (scanEv (argv ++ post)) =
      Program.switchLoop Program.initialArgs [] [] (scanEv argv) := by
    apply foldStable
    rw [← hpe]
    exact h
  have hr2 : (Program.switchLoop Program.initialArgs [] [] (scanEv (argv ++ post))).rc ≠ 0 := by
    rw [hfold]
    exact hr
  have hpp : Program.ParseArguments (argv ++ post) = Program.ParseArguments argv := by
    rw [ParseArguments_of_loop_ne_zero (argv ++ post) hr2, hfold, ← hpe]
  have hrcne : (Program.ParseArguments (argv ++ post)).rc ≠ 0 := by
    rw [hpp, hpe]
    exact hr
  rw [Main_parse_ne_zero (argv ++ post) openR monR quit hrcne]
  exact ⟨by simp [hpp], rfl, hpp⟩

theorem c9_witness :
    (Program.Main (["-v"] ++ ["--bogus", "3"]) true true (fun _ => false)).exitCode = 2 ∧
    (Program.Main (["-v"] ++ ["--bogus", "3"]) true true (fun _ => false)).dev = [] := by
  have h := c9_early_return_suffix ["-v"] ["--bogus", "3"] true true (fun _ => false)
    (by decide)
  refine ⟨?_, h.2.1⟩
  rw [h.1]
  decide

/-! ## Claim C1 (corrected): amended statement -/

theorem scanEv_dash_m (u : String) (ts : List String) :
    scanEv ("-m" :: u :: ts) = OptEvent.flag 'm' :: scanEv (u :: ts) := rfl

theorem scanEv_dash_l (u : String) (ts : List String) :
    scanEv ("-l" :: u :: ts) = OptEvent.flag 'l' :: scanEv (u :: ts) := rfl

theorem scanEv_dash_h (rest : List String) :
    scanEv ("-h" :: rest) = OptEvent.flag 'h' :: scanEv rest := by
  cases rest <;> rfl

theorem scanEv_ddash_help (rest : List String) :
    scanEv ("--help" :: rest) = OptEvent.flag 'h' :: scanEv rest := by
  cases rest <;> rfl

theorem classify_plain (t : String) (h : t.data.head? ≠ some '-') :
    classify t = TokClass.plain := by
  unfold classify
  rcases ht : t.data with _ | ⟨c, cs⟩
  · rfl
  · have hc : c ≠ '-' := by
      intro he
      subst he
      apply h
      rw [ht]
      rfl
    split <;> simp_all

theorem scanEv_plain_step (t : String) (h : classify t = TokClass.plain)
    (u : String) (ts : List String) :
    scanEv (t :: u :: ts) = scanEv (u :: ts) := by
  simp [scanEv, h]

/-- Inductive core for claim C1: when every token before the help flag is
"-m", "-l" or a non-option token, the parser loop stops at the help flag
with status 1 and the help text printed. -/
theorem helpFirst : ∀ (pre : List String),
    (∀ t ∈ pre, t = "-m" ∨ t = "-l" ∨ t.data.head? ≠ some '-') →
    ∀ (ht : String), (ht = "-h" ∨ ht = "--help") →
    ∀ (rest : List String) (a : Program.Args) (o e : List String),
    ∃ a2, Program.switchLoop a o e (scanEv (pre ++ ht :: rest)) =
      ⟨1, a2, o ++ [Program.help_msg], e⟩ := by
  intro pre
  induction pre with
  | nil =>
    intro _ ht hht rest a o e
    refine ⟨a, ?_⟩
    rcases hht with rfl | rfl
    · rw [List.nil_append, scanEv_dash_h, switchLoop_flag_h]
    · rw [List.nil_append, scanEv_ddash_help, switchLoop_flag_h]
  | cons t pre2 ih =>
    intro hpre ht hht rest a o e
    have hpre2 : ∀ x ∈ pre2, x = "-m" ∨ x = "-l" ∨ x.data.head? ≠ some '-' :=
      fun x hx => hpre x (List.mem_cons_of_mem t hx)
    obtain ⟨x, xs, hxxs⟩ : ∃ x xs, pre2 ++ ht :: rest = x :: xs := by
      cases hq : pre2 ++ ht :: rest with
      | nil => exact absurd hq (by simp)
      | cons x xs => exact ⟨x, xs, rfl⟩
    rcases hpre t (List.mem_cons_self t pre2) with rfl | rfl | hplain
    · obtain ⟨a2, ha2⟩ := ih hpre2 ht hht rest { a with monitor := true } o e
      refine ⟨a2, ?_⟩
      rw [List.cons_append, hxxs, scanEv_dash_m, ← hxxs, switchLoop_flag_m]
      exact ha2
    · obtain ⟨a2, ha2⟩ := ih hpre2 ht hht rest { a with list := true } o e
      refine ⟨a2, ?_⟩
      rw [List.cons_append, hxxs, scanEv_dash_l, ← hxxs, switchLoop_flag_l]
      exact ha2
    · obtain ⟨a2, ha2⟩ := ih hpre2 ht hht rest a o e
      refine ⟨a2, ?_⟩
      rw [List.cons_append, hxxs, scanEv_plain_step t (classify_plain t hplain) x xs, ← hxxs]
      exact ha2

/-- C1 amended: for every argument vector containing "-h" or "--help"
where every earlier token is "-m", "-l" or a non-option token — the
counterexample forces excluding an earlier version flag, parse failure,
argument-taking option (which would capture the help token) or "--"
terminator — the program exits with status 1 and Device::Open is never
called. -/
theorem c1_help_before_other_flags (pre rest : List String) (ht : String)
    (openR monR : Bool) (quit : Nat → Bool)
    (hpre : ∀ t ∈ pre, t = "-m" ∨ t = "-l" ∨ t.data.head? ≠ some '-')
    (hht : ht = "-h" ∨ ht = "--help") :
    (Program.Main (pre ++ ht :: rest) openR monR quit).exitCode = 1 ∧
    (Program.Main (pre ++ ht :: rest) openR monR quit).dev = [] := by
  obtain ⟨a2, ha2⟩ := helpFirst pre hpre ht hht rest Program.initialArgs [] []
  have hne : (Program.switchLoop Program.initialArgs [] []
      (scanEv (pre ++ ht :: rest))).rc ≠ 0 := by
    rw [ha2]
    simp
  have hp : Program.ParseArguments (pre ++ ht :: rest) =
      ⟨1, a2, [] ++ [Program.help_msg], []⟩ := by
    rw [ParseArguments_of_loop_ne_zero _ hne, ha2]
  have hne2 : (Program.ParseArguments (pre ++ ht :: rest)).rc ≠ 0 := by
    rw [hp]
    simp
  rw [Main_parse_ne_zero _ openR monR quit hne2]
  exact ⟨by simp [hp], rfl⟩

theorem c1_witness :
    (Program.Main (["-m", "7"] ++ "-h" :: ["-l", "2"]) true true
      (fun _ => false)).exitCode = 1 ∧
    (Program.Main (["-m", "7"] ++ "-h" :: ["-l", "2"]) true true
      (fun _ => false)).dev = [] :=
  c1_help_before_other_flags ["-m", "7"] ["-l", "2"] "-h" true true (fun _ => false)
    (by decide) (Or.inl rfl)
